import Mathlib

/-!
Shallow embedding of the MCP tool relevance scoring and selection engine
(`libs/remix-ai-core/src/services/toolScoring.ts`, class `ToolScoring`).

Numbers are modelled by `ℚ` (the source uses IEEE doubles; every constant in
the source is a short decimal, and all claim statements are exact at that
level). Strings are Lean `String`s; `String.prototype.includes` is modelled by
an executable substring test on the character lists. JavaScript falsy-default
idioms (`x || 0.3`, `w || 0.5`) are modelled explicitly: `0` is falsy, so an
explicit zero falls back to the default, exactly as in the source. The
generated human-readable `reasoning` string of `IToolScore` is not modelled:
it is presentation only, computed from the components after the fact, and no
property below concerns it.
-/

namespace ToolScoring

/-- Executable model of JavaScript `haystack.includes(needle)` on char lists:
true iff `pat` occurs contiguously in the list. -/
def listContainsSub (pat : List Char) : List Char → Bool
  | [] => pat.isEmpty
  | c :: rest => pat.isPrefixOf (c :: rest) || listContainsSub pat rest

/-- Model of `s.includes(pat)` for Lean strings. -/
def containsSubstr (s pat : String) : Bool :=
  listContainsSub pat.data s.data

/-- Model of JavaScript `s.toLowerCase()` (characterwise, which agrees with
the library function on the ASCII strings the scorer handles). -/
def lowerStr (s : String) : String :=
  ⟨s.data.map Char.toLower⟩

/-- Model of JavaScript `s.substring(0, n)`. -/
def takeStr (s : String) (n : ℕ) : String :=
  ⟨s.data.take n⟩

/-- Tool catalog entry (`IMCPTool`); `inputSchemaJson` stands for
`JSON.stringify(tool.inputSchema)`, the only use the scorer makes of the
schema. -/
structure IMCPTool where
  name : String
  description : Option String
  inputSchemaJson : String
deriving DecidableEq

/-- The six intent types of `IUserIntent['type']`. -/
inductive IntentType where
  | coding
  | documentation
  | debugging
  | explanation
  | generation
  | completion
deriving DecidableEq

/-- User intent (`IUserIntent`): type tag, extracted keywords, detected
domains. -/
structure IUserIntent where
  type : IntentType
  keywords : List String
  domains : List String
deriving DecidableEq

/-- Optional configuration (`IEnhancedMCPProviderParams`): domain-weight
overrides and the relevance threshold. An absent field is `none` / `[]`. -/
structure IEnhancedMCPProviderParams where
  domainWeights : List (String × ℚ)
  toolRelevanceThreshold : Option ℚ
deriving DecidableEq

/-- Empty params object (`{}`). -/
def emptyParams : IEnhancedMCPProviderParams := ⟨[], none⟩

/-- The four score components of `IToolScore['components']`. -/
structure Components where
  keywordMatch : ℚ
  domainRelevance : ℚ
  typeRelevance : ℚ
  actionMatch : ℚ
deriving DecidableEq

/-- Scored output unit (`IToolScore`, without the unmodelled `reasoning`
string). -/
structure IToolScore where
  tool : IMCPTool
  serverName : String
  score : ℚ
  components : Components
deriving DecidableEq

/-- Input pairing of a tool with the name of the server providing it. -/
structure ToolEntry where
  tool : IMCPTool
  serverName : String
deriving DecidableEq

/-- The `defaultDomainWeights` table, in source order. -/
def defaultDomainWeights : List (String × ℚ) :=
  [("solidity", 1.0), ("javascript", 0.8), ("react", 0.7), ("web3", 0.9),
   ("testing", 0.6), ("deployment", 0.7), ("security", 1.0), ("defi", 0.8),
   ("nft", 0.7), ("compilation", 0.9), ("debugging", 0.9), ("file", 0.7),
   ("tutorial", 0.6)]

/-- The `intentTypeToActions` table. -/
def intentTypeToActions : IntentType → List String
  | .coding => ["compile", "build", "create", "write", "generate", "scaffold"]
  | .documentation => ["read", "list", "get", "fetch", "show"]
  | .debugging => ["debug", "trace", "inspect", "breakpoint", "step", "watch"]
  | .explanation => ["read", "get", "analyze", "scan", "explain"]
  | .generation => ["create", "generate", "scaffold", "write", "build"]
  | .completion => ["get", "read", "list", "fetch", "autocomplete"]

/-- The `actionPatterns` table (category, action verbs), in source order. -/
def actionPatterns : List (String × List String) :=
  [("file_operations", ["read", "write", "create", "delete", "move", "copy", "list", "exists"]),
   ("compilation", ["compile", "build", "verify", "optimize"]),
   ("deployment", ["deploy", "send", "call", "execute", "run"]),
   ("debugging", ["debug", "breakpoint", "step", "watch", "trace", "evaluate"]),
   ("analysis", ["scan", "analyze", "check", "inspect", "validate"]),
   ("configuration", ["set", "get", "config", "update"]),
   ("tutorial", ["tutorial", "learn", "guide", "start"])]

/-- Per-keyword award step of `calculateKeywordMatch`: +1.0 on a direct
match, else +0.7 on a stem match (keyword truncated to its first
`max 4 (length − 2)` characters), else nothing. -/
def keywordStep (toolText : String) (acc : ℚ) (keyword : String) : ℚ :=
  let keywordLower := lowerStr keyword
  if containsSubstr toolText keywordLower then acc + 1.0
  else if containsSubstr toolText
      (takeStr keywordLower (max 4 (keywordLower.length - 2))) then acc + 0.7
  else acc

/-- The lowercase search text of `calculateKeywordMatch`: name, description
(empty if absent) and serialized input schema, joined by spaces. -/
def keywordToolText (tool : IMCPTool) : String :=
  lowerStr (String.intercalate " "
    [tool.name, tool.description.getD "", tool.inputSchemaJson])

/-- Model of `calculateKeywordMatch(tool, keywords, prompt)`. -/
def calculateKeywordMatch (tool : IMCPTool) (keywords : List String)
    (prompt : String) : ℚ :=
  if keywords = [] then 0
  else
    let toolText := keywordToolText tool
    let promptLower := lowerStr prompt
    let matchScore := keywords.foldl (keywordStep toolText) 0
    let matchScore :=
      if containsSubstr promptLower (lowerStr tool.name) then matchScore + 1.0
      else matchScore
    min (matchScore / (keywords.length : ℚ)) 1.0

/-- Per-domain weight lookup `domainWeights[domain] || 0.5`: an absent key or
an explicit falsy `0` both yield the neutral `0.5`. -/
def lookupWeight (domainWeights : List (String × ℚ)) (domain : String) : ℚ :=
  match domainWeights.lookup domain with
  | some w => if w = 0 then 0.5 else w
  | none => 0.5

/-- The lowercase name+description text used by `calculateDomainRelevance`. -/
def domainToolText (tool : IMCPTool) : String :=
  lowerStr (String.intercalate " " [tool.name, tool.description.getD ""])

/-- Accumulation step of `calculateDomainRelevance`: on a textual domain
match, add the looked-up weight and count the match. -/
def domainStep (toolText : String) (domainWeights : List (String × ℚ))
    (acc : ℚ × ℕ) (domain : String) : ℚ × ℕ :=
  let weight := lookupWeight domainWeights domain
  if containsSubstr toolText (lowerStr domain) then (acc.1 + weight, acc.2 + 1)
  else acc

/-- Model of `calculateDomainRelevance(tool, domains, domainWeights)`. -/
def calculateDomainRelevance (tool : IMCPTool) (domains : List String)
    (domainWeights : List (String × ℚ)) : ℚ :=
  if domains = [] then 0.5
  else
    let toolText := domainToolText tool
    let acc := domains.foldl (domainStep toolText domainWeights) (0, 0)
    if acc.2 > 0 then acc.1 / (acc.2 : ℚ) else 0

/-- Step of `calculateTypeRelevance`: raise the running maximum to 1.0 when
the tool name or description contains the expected action verb. -/
def typeRelevanceStep (toolName toolDesc : String) (m : ℚ)
    (action : String) : ℚ :=
  if containsSubstr toolName action || containsSubstr toolDesc action
  then max m 1.0 else m

/-- Model of `calculateTypeRelevance(tool, intentType)`; the trailing
`maxRelevance || 0.3` is the JavaScript falsy default again: a running
maximum of 0 becomes the 0.3 base score. -/
def calculateTypeRelevance (tool : IMCPTool) (intentType : IntentType) : ℚ :=
  let expectedActions := intentTypeToActions intentType
  if expectedActions = [] then 0.5
  else
    let toolName := lowerStr tool.name
    let toolDesc := lowerStr (tool.description.getD "")
    let maxRelevance := expectedActions.foldl
      (typeRelevanceStep toolName toolDesc) 0
    if maxRelevance = 0 then 0.3 else maxRelevance

/-- Inner step of `calculateActionMatch`'s first pass, for one action verb:
raise the running max to 1.0 when tool name and prompt both contain the
verb, to 0.6 when only the tool name does. -/
def actionStep (toolName promptLower : String) (m : ℚ) (action : String) : ℚ :=
  if containsSubstr toolName action then
    if containsSubstr promptLower action then max m 1.0 else max m 0.6
  else m

/-- Step of `calculateActionMatch`'s second pass: raise the running max to
0.8 when the tool name contains an expected intent verb. -/
def intentActionStep (toolName : String) (m : ℚ) (action : String) : ℚ :=
  if containsSubstr toolName action then max m 0.8 else m

/-- Model of `calculateActionMatch(tool, intentType, prompt)`. -/
def calculateActionMatch (tool : IMCPTool) (intentType : IntentType)
    (prompt : String) : ℚ :=
  let toolName := lowerStr tool.name
  let promptLower := lowerStr prompt
  let matchScore := actionPatterns.foldl
    (fun m p => p.2.foldl (actionStep toolName promptLower) m) 0
  let expectedActions := intentTypeToActions intentType
  expectedActions.foldl (intentActionStep toolName) matchScore

/-- Model of `calculateToolScore(tool, intent, prompt, domainWeights)`:
the four components and their fixed weighted sum. -/
def calculateToolScore (tool : IMCPTool) (intent : IUserIntent)
    (prompt : String) (domainWeights : List (String × ℚ)) :
    ℚ × Components :=
  let components : Components :=
    ⟨calculateKeywordMatch tool intent.keywords prompt,
     calculateDomainRelevance tool intent.domains domainWeights,
     calculateTypeRelevance tool intent.type,
     calculateActionMatch tool intent.type prompt⟩
  let score := 0.35 * components.keywordMatch
    + 0.25 * components.domainRelevance
    + 0.20 * components.typeRelevance
    + 0.20 * components.actionMatch
  (score, components)

/-- The merged domain-weight table `\x7b ...defaultDomainWeights,
...params.domainWeights \x7d`: an override entry shadows the default of the
same key under first-match `lookup`. -/
def mergedDomainWeights (params : IEnhancedMCPProviderParams) :
    List (String × ℚ) :=
  params.domainWeights ++ defaultDomainWeights

/-- The effective threshold `params.toolRelevanceThreshold || 0.3`: an
absent value or an explicit falsy `0` both yield `0.3`. -/
def effectiveThreshold (params : IEnhancedMCPProviderParams) : ℚ :=
  match params.toolRelevanceThreshold with
  | some t => if t = 0 then 0.3 else t
  | none => 0.3

/-- Scoring and filtering step of `scoreTools` for one entry: keep it iff
its aggregate reaches the threshold. -/
def scoreEntry (intent : IUserIntent) (prompt : String)
    (domainWeights : List (String × ℚ)) (relevanceThreshold : ℚ)
    (e : ToolEntry) : Option IToolScore :=
  let s := calculateToolScore e.tool intent prompt domainWeights
  if relevanceThreshold ≤ s.1 then
    some ⟨e.tool, e.serverName, s.1, s.2⟩
  else none

/-- Descending stable comparison used by `.sort((a, b) => b.score − a.score)`. -/
def scoreDescLe (a b : IToolScore) : Bool := b.score ≤ a.score

/-- Model of `scoreTools(tools, intent, prompt, params)`: score every entry,
drop those below the threshold, sort the survivors by aggregate descending
(stably, as the runtime sort is stable). -/
def scoreTools (tools : List ToolEntry) (intent : IUserIntent)
    (prompt : String) (params : IEnhancedMCPProviderParams) :
    List IToolScore :=
  let domainWeights := mergedDomainWeights params
  let relevanceThreshold := effectiveThreshold params
  let scoredTools :=
    tools.filterMap (scoreEntry intent prompt domainWeights relevanceThreshold)
  scoredTools.mergeSort scoreDescLe

/-- Model of `selectByScore`: copy, sort by aggregate descending, truncate. -/
def selectByScore (tools : List IToolScore) (maxTools : ℕ) :
    List IToolScore :=
  (tools.mergeSort scoreDescLe).take maxTools

/-- The secondary score of `selectBySemantic`. -/
def semanticScore (t : IToolScore) : ℚ :=
  (t.components.keywordMatch + t.components.domainRelevance
    + t.components.actionMatch) / 3

/-- Descending stable comparison on the semantic score. -/
def semanticDescLe (a b : IToolScore) : Bool := semanticScore b ≤ semanticScore a

/-- Model of `selectBySemantic`. -/
def selectBySemantic (tools : List IToolScore) (maxTools : ℕ) :
    List IToolScore :=
  (tools.mergeSort semanticDescLe).take maxTools

/-- Model of `inferToolCategory(tool)`: first category of `actionPatterns`
one of whose action verbs occurs in the lowercase tool name; `general` if
none does. -/
def inferToolCategory (tool : IMCPTool) : String :=
  let name := lowerStr tool.name
  match actionPatterns.find?
      (fun p => p.2.any (fun action => containsSubstr name action)) with
  | some p => p.1
  | none => "general"

/-- Pointwise update of a count table, modelling `Map.set`. -/
def setCount (f : String → ℕ) (key : String) (v : ℕ) : String → ℕ :=
  fun s => if s = key then v else f s

/-- Loop of `selectByHybrid`: greedy single pass, maps carried as count
functions (`Map.get(k) || 0` is the application itself, as the maps only
ever hold positive counts). -/
def selectByHybridAux (maxTools : ℕ) :
    (String → ℕ) → (String → ℕ) → List IToolScore → List IToolScore →
    List IToolScore
  | _, _, selected, [] => selected
  | serverCounts, categoryCounts, selected, toolScore :: rest =>
    if maxTools ≤ selected.length then selected
    else
      let serverCount := serverCounts toolScore.serverName
      let category := inferToolCategory toolScore.tool
      let categoryCount := categoryCounts category
      let diversityPenalty := min ((serverCount : ℚ) * 0.05) 0.2
        + min ((categoryCount : ℚ) * 0.1) 0.3
      let adjustedScore := toolScore.score * (1 - diversityPenalty)
      if adjustedScore > 0.15 then
        selectByHybridAux maxTools
          (setCount serverCounts toolScore.serverName (serverCount + 1))
          (setCount categoryCounts category (categoryCount + 1))
          (selected ++ [toolScore]) rest
      else
        selectByHybridAux maxTools serverCounts categoryCounts selected rest

/-- Model of `selectByHybrid(tools, maxTools)`. -/
def selectByHybrid (tools : List IToolScore) (maxTools : ℕ) :
    List IToolScore :=
  selectByHybridAux maxTools (fun _ => 0) (fun _ => 0) [] tools

/-- Model of `selectTools(scoredTools, maxTools, strategy)`; the strategy tag
is a raw string so that the `default` fallback of the `switch` is reachable,
as it is for untyped callers of the source. -/
def selectTools (scoredTools : List IToolScore) (maxTools : ℕ)
    (strategy : String) : List IToolScore :=
  if strategy = "priority" then selectByScore scoredTools maxTools
  else if strategy = "semantic" then selectBySemantic scoredTools maxTools
  else if strategy = "hybrid" then selectByHybrid scoredTools maxTools
  else scoredTools.take maxTools

/-! ### General helper lemmas -/

/-- A property preserved by every fold step holds of the fold. -/
theorem foldl_invariant {α β : Type} (P : β → Prop) (step : β → α → β)
    (h : ∀ b a, P b → P (step b a)) :
    ∀ (l : List α) (b : β), P b → P (l.foldl step b)
  | [], _, hb => hb
  | a :: t, b, hb => foldl_invariant P step h t (step b a) (h b a hb)

/-- The aggregate produced by `calculateToolScore` is definitionally the
fixed weighted sum of the four components it returns. -/
theorem calculateToolScore_fst (tool : IMCPTool) (intent : IUserIntent)
    (prompt : String) (domainWeights : List (String × ℚ)) :
    (calculateToolScore tool intent prompt domainWeights).1 =
      0.35 * (calculateToolScore tool intent prompt domainWeights).2.keywordMatch
      + 0.25 * (calculateToolScore tool intent prompt domainWeights).2.domainRelevance
      + 0.20 * (calculateToolScore tool intent prompt domainWeights).2.typeRelevance
      + 0.20 * (calculateToolScore tool intent prompt domainWeights).2.actionMatch := rfl

/-- Characterization of membership in the `scoreTools` output: the element
was built by `scoreEntry` from some input entry and passed the threshold. -/
theorem mem_scoreTools {tools : List ToolEntry} {intent : IUserIntent}
    {prompt : String} {params : IEnhancedMCPProviderParams} {st : IToolScore}
    (hst : st ∈ scoreTools tools intent prompt params) :
    ∃ e ∈ tools,
      effectiveThreshold params ≤
        (calculateToolScore e.tool intent prompt (mergedDomainWeights params)).1 ∧
      st = ⟨e.tool, e.serverName,
        (calculateToolScore e.tool intent prompt (mergedDomainWeights params)).1,
        (calculateToolScore e.tool intent prompt (mergedDomainWeights params)).2⟩ := by
  rw [scoreTools, List.mem_mergeSort] at hst
  obtain ⟨e, he, hfe⟩ := List.mem_filterMap.mp hst
  rw [scoreEntry] at hfe
  by_cases hth : effectiveThreshold params ≤
      (calculateToolScore e.tool intent prompt (mergedDomainWeights params)).1
  · refine ⟨e, he, hth, ?_⟩
    rw [if_pos hth] at hfe
    exact (Option.some.inj hfe).symm
  · rw [if_neg hth] at hfe
    exact absurd hfe (Option.noConfusion)

/-! ### C1 -/

/-- C1: for every `ScoredTool` produced by `scoreTools`, the aggregate equals
the fixed weighted sum `0.35·keywordMatch + 0.25·domainRelevance +
0.20·typeRelevance + 0.20·actionMatch` of its own four components (exactly,
in the rational model). -/
theorem scoreTools_aggregate_eq_weighted_sum (tools : List ToolEntry)
    (intent : IUserIntent) (prompt : String)
    (params : IEnhancedMCPProviderParams) (st : IToolScore)
    (hst : st ∈ scoreTools tools intent prompt params) :
    st.score = 0.35 * st.components.keywordMatch
      + 0.25 * st.components.domainRelevance
      + 0.20 * st.components.typeRelevance
      + 0.20 * st.components.actionMatch := by
  obtain ⟨e, _, _, rfl⟩ := mem_scoreTools hst
  exact calculateToolScore_fst e.tool intent prompt (mergedDomainWeights params)

/-! ### C8 -/

/-- C8: a strategy tag other than `priority`, `semantic`, `hybrid` makes
`selectTools` return exactly the first `maxTools` input items in input
order, with no sorting and no error. -/
theorem selectTools_unknown_strategy (scoredTools : List IToolScore)
    (maxTools : ℕ) (strategy : String)
    (h1 : strategy ≠ "priority") (h2 : strategy ≠ "semantic")
    (h3 : strategy ≠ "hybrid") :
    selectTools scoredTools maxTools strategy = scoredTools.take maxTools := by
  rw [selectTools, if_neg h1, if_neg h2, if_neg h3]

/-! ### C6 -/

/-- A fold whose step never fires keeps its accumulator. -/
theorem foldl_congr_id {α β : Type} (step : β → α → β) (l : List α) (b : β)
    (h : ∀ x ∈ l, ∀ acc, step acc x = acc) : l.foldl step b = b := by
  induction l generalizing b with
  | nil => rfl
  | cons a t ih =>
    rw [List.foldl_cons, h a (List.mem_cons_self a t), ih]
    exact fun x hx => h x (List.mem_cons_of_mem a hx)

/-- C6: `calculateDomainRelevance` returns exactly 0.5 when the intent's
domain set is empty, and exactly 0 when domains are supplied but none of
them occurs in the tool's lowercase name+description text. -/
theorem domainRelevance_neutral_and_zero (tool : IMCPTool)
    (domainWeights : List (String × ℚ)) (domains : List String)
    (hne : domains ≠ [])
    (hmiss : ∀ d ∈ domains,
      containsSubstr (domainToolText tool) (lowerStr d) = false) :
    calculateDomainRelevance tool [] domainWeights = 0.5 ∧
    calculateDomainRelevance tool domains domainWeights = 0 := by
  constructor
  · rfl
  · rw [calculateDomainRelevance, if_neg hne]
    have hfold : domains.foldl
        (domainStep (domainToolText tool) domainWeights) (0, 0) = (0, 0) := by
      apply foldl_congr_id
      intro x hx acc
      rw [domainStep]
      simp only [hmiss x hx, Bool.false_eq_true, if_false]
    simp only [hfold]
    norm_num

/-! ### C2 -/

/-- The descending comparison on aggregates is transitive. -/
theorem scoreDescLe_trans (a b c : IToolScore) (hab : scoreDescLe a b)
    (hbc : scoreDescLe b c) : scoreDescLe a c := by
  simp only [scoreDescLe, decide_eq_true_eq] at *
  exact le_trans hbc hab

/-- The descending comparison on aggregates is total. -/
theorem scoreDescLe_total (a b : IToolScore) :
    scoreDescLe a b || scoreDescLe b a := by
  simp only [scoreDescLe, Bool.or_eq_true, decide_eq_true_eq]
  exact le_total b.score a.score

/-- C2: `scoreTools` never returns an entry whose aggregate is strictly
below the configured relevance threshold (default 0.3, and 0.3 again for an
explicit falsy 0), and its output is sorted non-increasing by aggregate. -/
theorem scoreTools_threshold_and_sorted (tools : List ToolEntry)
    (intent : IUserIntent) (prompt : String)
    (params : IEnhancedMCPProviderParams) :
    (∀ st ∈ scoreTools tools intent prompt params,
      effectiveThreshold params ≤ st.score) ∧
    (scoreTools tools intent prompt params).Pairwise
      (fun a b => b.score ≤ a.score) := by
  constructor
  · intro st hst
    obtain ⟨e, _, hth, rfl⟩ := mem_scoreTools hst
    exact hth
  · have h := List.sorted_mergeSort scoreDescLe_trans scoreDescLe_total
      (List.filterMap
        (scoreEntry intent prompt (mergedDomainWeights params)
          (effectiveThreshold params)) tools)
    rw [scoreTools]
    exact h.imp (fun hab => by
      simpa only [scoreDescLe, decide_eq_true_eq] using hab)

/-! ### C3 -/

/-- Let-free unfolding of `calculateKeywordMatch`. -/
theorem calculateKeywordMatch_eq (tool : IMCPTool) (keywords : List String)
    (prompt : String) :
    calculateKeywordMatch tool keywords prompt =
      if keywords = [] then 0
      else
        min ((if containsSubstr (lowerStr prompt) (lowerStr tool.name) then
            keywords.foldl (keywordStep (keywordToolText tool)) 0 + 1.0
          else keywords.foldl (keywordStep (keywordToolText tool)) 0)
          / (keywords.length : ℚ)) 1.0 := rfl

/-- Let-free unfolding of `calculateDomainRelevance`. -/
theorem calculateDomainRelevance_eq (tool : IMCPTool) (domains : List String)
    (domainWeights : List (String × ℚ)) :
    calculateDomainRelevance tool domains domainWeights =
      if domains = [] then 0.5
      else
        if (domains.foldl (domainStep (domainToolText tool) domainWeights)
              (0, 0)).2 > 0 then
          (domains.foldl (domainStep (domainToolText tool) domainWeights)
              (0, 0)).1 /
            ((domains.foldl (domainStep (domainToolText tool) domainWeights)
              (0, 0)).2 : ℚ)
        else 0 := rfl

/-- Let-free unfolding of `calculateTypeRelevance`. -/
theorem calculateTypeRelevance_eq (tool : IMCPTool) (intentType : IntentType) :
    calculateTypeRelevance tool intentType =
      if intentTypeToActions intentType = [] then 0.5
      else
        if (intentTypeToActions intentType).foldl
            (typeRelevanceStep (lowerStr tool.name)
              (lowerStr (tool.description.getD ""))) (0 : ℚ) = 0 then 0.3
        else (intentTypeToActions intentType).foldl
            (typeRelevanceStep (lowerStr tool.name)
              (lowerStr (tool.description.getD ""))) (0 : ℚ) := rfl

/-- Let-free unfolding of `calculateActionMatch`. -/
theorem calculateActionMatch_eq (tool : IMCPTool) (intentType : IntentType)
    (prompt : String) :
    calculateActionMatch tool intentType prompt =
      (intentTypeToActions intentType).foldl
        (intentActionStep (lowerStr tool.name))
        (actionPatterns.foldl
          (fun m p => p.2.foldl
            (actionStep (lowerStr tool.name) (lowerStr prompt)) m) 0) := rfl

/-- Each keyword award step keeps the accumulated sum nonnegative. -/
theorem keywordStep_nonneg (toolText : String) (acc : ℚ) (keyword : String)
    (h : 0 ≤ acc) : 0 ≤ keywordStep toolText acc keyword := by
  rw [keywordStep]
  split_ifs <;> linarith

/-- The keyword component always lands in the unit interval: the summed
awards plus the flat name-in-prompt bonus are unbounded, but the final
`min (sum / count) 1` clamp bounds it above, and nonnegativity of every
contribution bounds it below. -/
theorem calculateKeywordMatch_bounds (tool : IMCPTool)
    (keywords : List String) (prompt : String) :
    0 ≤ calculateKeywordMatch tool keywords prompt ∧
      calculateKeywordMatch tool keywords prompt ≤ 1 := by
  rw [calculateKeywordMatch_eq]
  split_ifs with hk hb
  · norm_num
  · have h0 : (0:ℚ) ≤ keywords.foldl (keywordStep (keywordToolText tool)) 0 :=
      foldl_invariant (0 ≤ ·) _
        (fun b a hb => keywordStep_nonneg _ b a hb) keywords 0 le_rfl
    constructor
    · refine le_min (div_nonneg ?_ (Nat.cast_nonneg _)) (by norm_num)
      linarith
    · exact le_trans (min_le_right _ _) (by norm_num)
  · have h0 : (0:ℚ) ≤ keywords.foldl (keywordStep (keywordToolText tool)) 0 :=
      foldl_invariant (0 ≤ ·) _
        (fun b a hb => keywordStep_nonneg _ b a hb) keywords 0 le_rfl
    constructor
    · exact le_min (div_nonneg h0 (Nat.cast_nonneg _)) (by norm_num)
    · exact le_trans (min_le_right _ _) (by norm_num)

/-- Under a weight table confined to the unit interval, every per-domain
lookup result is in the unit interval (an absent or explicitly zero entry
yields the neutral 0.5). -/
theorem lookupWeight_bounds {domainWeights : List (String × ℚ)}
    (h : ∀ p ∈ domainWeights, 0 ≤ p.2 ∧ p.2 ≤ 1) (domain : String) :
    0 ≤ lookupWeight domainWeights domain ∧
      lookupWeight domainWeights domain ≤ 1 := by
  rw [lookupWeight]
  rcases hlk : domainWeights.lookup domain with _ | w
  · norm_num
  · show (0 ≤ if w = 0 then (0.5:ℚ) else w) ∧ (if w = 0 then (0.5:ℚ) else w) ≤ 1
    by_cases hw : w = 0
    · rw [if_pos hw]; norm_num
    · rw [if_neg hw]
      obtain ⟨l₁, l₂, heq, -⟩ := List.lookup_eq_some_iff.mp hlk
      exact h (domain, w)
        (heq ▸ List.mem_append_right l₁ (List.mem_cons_self _ _))

/-- One accumulation step of the domain fold keeps the running sum between
0 and the running match count, given a unit-interval weight table. -/
theorem domainStep_bounds (toolText : String)
    {domainWeights : List (String × ℚ)}
    (h : ∀ p ∈ domainWeights, 0 ≤ p.2 ∧ p.2 ≤ 1) (b : ℚ × ℕ) (a : String)
    (hb : 0 ≤ b.1 ∧ b.1 ≤ (b.2 : ℚ)) :
    0 ≤ (domainStep toolText domainWeights b a).1 ∧
      (domainStep toolText domainWeights b a).1 ≤
        ((domainStep toolText domainWeights b a).2 : ℚ) := by
  rw [domainStep]
  split_ifs
  · refine ⟨add_nonneg hb.1 (lookupWeight_bounds h a).1, ?_⟩
    push_cast
    exact add_le_add hb.2 (lookupWeight_bounds h a).2
  · exact hb

/-- The domain component lands in the unit interval whenever every weight in
the table does. -/
theorem calculateDomainRelevance_bounds (tool : IMCPTool)
    (domains : List String) {domainWeights : List (String × ℚ)}
    (h : ∀ p ∈ domainWeights, 0 ≤ p.2 ∧ p.2 ≤ 1) :
    0 ≤ calculateDomainRelevance tool domains domainWeights ∧
      calculateDomainRelevance tool domains domainWeights ≤ 1 := by
  rw [calculateDomainRelevance_eq]
  split_ifs with hd hc
  · norm_num
  · obtain ⟨hnn, hle⟩ :=
      foldl_invariant (fun acc : ℚ × ℕ => 0 ≤ acc.1 ∧ acc.1 ≤ (acc.2 : ℚ))
        (domainStep (domainToolText tool) domainWeights)
        (domainStep_bounds (domainToolText tool) h) domains (0, 0)
        (by norm_num)
    constructor
    · exact div_nonneg hnn (Nat.cast_nonneg _)
    · rw [div_le_one (by exact_mod_cast hc)]
      exact hle
  · norm_num

/-- The type-relevance component always lands in the unit interval. -/
theorem calculateTypeRelevance_bounds (tool : IMCPTool)
    (intentType : IntentType) :
    0 ≤ calculateTypeRelevance tool intentType ∧
      calculateTypeRelevance tool intentType ≤ 1 := by
  rw [calculateTypeRelevance_eq]
  split_ifs with h0 h1
  · norm_num
  · norm_num
  · exact foldl_invariant (fun m : ℚ => 0 ≤ m ∧ m ≤ 1)
      (typeRelevanceStep (lowerStr tool.name)
        (lowerStr (tool.description.getD "")))
      (fun b a hb => by
        rw [typeRelevanceStep]
        split_ifs
        · exact ⟨le_max_of_le_right (by norm_num), max_le hb.2 (by norm_num)⟩
        · exact hb)
      (intentTypeToActions intentType) 0 (by norm_num)

/-- One action-verb step of the first pass keeps the running maximum inside
the unit interval. -/
theorem actionStep_bounds (toolName promptLower : String) (m : ℚ)
    (action : String) (hm : 0 ≤ m ∧ m ≤ 1) :
    0 ≤ actionStep toolName promptLower m action ∧
      actionStep toolName promptLower m action ≤ 1 := by
  rw [actionStep]
  split_ifs
  · exact ⟨le_max_of_le_right (by norm_num), max_le hm.2 (by norm_num)⟩
  · exact ⟨le_max_of_le_right (by norm_num), max_le hm.2 (by norm_num)⟩
  · exact hm

/-- The action-match component always lands in the unit interval. -/
theorem calculateActionMatch_bounds (tool : IMCPTool)
    (intentType : IntentType) (prompt : String) :
    0 ≤ calculateActionMatch tool intentType prompt ∧
      calculateActionMatch tool intentType prompt ≤ 1 := by
  rw [calculateActionMatch_eq]
  have h1 := foldl_invariant (fun m : ℚ => 0 ≤ m ∧ m ≤ 1)
    (fun m p => p.2.foldl
      (actionStep (lowerStr tool.name) (lowerStr prompt)) m)
    (fun b p hb =>
      foldl_invariant (fun m : ℚ => 0 ≤ m ∧ m ≤ 1)
        (actionStep (lowerStr tool.name) (lowerStr prompt))
        (fun m a hm => actionStep_bounds _ _ m a hm) p.2 b hb)
    actionPatterns 0 (by norm_num)
  exact foldl_invariant (fun m : ℚ => 0 ≤ m ∧ m ≤ 1)
    (intentActionStep (lowerStr tool.name))
    (fun b a hb => by
      rw [intentActionStep]
      split_ifs
      · exact ⟨le_max_of_le_right (by norm_num), max_le hb.2 (by norm_num)⟩
      · exact hb)
    (intentTypeToActions intentType) _ h1

/-- C3: whenever every weight of the domain-weight table lies in [0,1], all
four components reported by `calculateToolScore` lie in [0,1]; in
particular the keyword component is clamped into the interval even though
its pre-clamp accumulation is unbounded. -/
theorem components_within_unit_interval (tool : IMCPTool)
    (intent : IUserIntent) (prompt : String)
    (domainWeights : List (String × ℚ))
    (h : ∀ p ∈ domainWeights, 0 ≤ p.2 ∧ p.2 ≤ 1) :
    (0 ≤ (calculateToolScore tool intent prompt domainWeights).2.keywordMatch ∧
      (calculateToolScore tool intent prompt domainWeights).2.keywordMatch ≤ 1) ∧
    (0 ≤ (calculateToolScore tool intent prompt domainWeights).2.domainRelevance ∧
      (calculateToolScore tool intent prompt domainWeights).2.domainRelevance ≤ 1) ∧
    (0 ≤ (calculateToolScore tool intent prompt domainWeights).2.typeRelevance ∧
      (calculateToolScore tool intent prompt domainWeights).2.typeRelevance ≤ 1) ∧
    (0 ≤ (calculateToolScore tool intent prompt domainWeights).2.actionMatch ∧
      (calculateToolScore tool intent prompt domainWeights).2.actionMatch ≤ 1) :=
  ⟨calculateKeywordMatch_bounds tool intent.keywords prompt,
   calculateDomainRelevance_bounds tool intent.domains h,
   calculateTypeRelevance_bounds tool intent.type,
   calculateActionMatch_bounds tool intent.type prompt⟩

/-! ### C5 -/

/-- First pass of the action match, stated extensionally as in the spec:
1.0 when some action verb of the fixed table occurs in both the lowercase
tool name and prompt, else 0.6 when some verb occurs in the tool name,
else 0 — evaluated over a given verb list. -/
def passAValue (tn pl : String) (l : List String) : ℚ :=
  if l.any (fun a => containsSubstr tn a && containsSubstr pl a) then 1.0
  else if l.any (fun a => containsSubstr tn a) then 0.6 else 0

/-- First pass value over the whole category table. -/
def passACatValue (tn pl : String) (ps : List (String × List String)) : ℚ :=
  if ps.any (fun p => p.2.any (fun a => containsSubstr tn a && containsSubstr pl a)) then 1.0
  else if ps.any (fun p => p.2.any (fun a => containsSubstr tn a)) then 0.6 else 0

/-- The first pass of `calculateActionMatch`, following the spec wording:
for the action-category table, 1.0 if some verb occurs in both tool name
and prompt, else 0.6 if some verb occurs in the tool name, else 0. -/
def actionFirstPass (tool : IMCPTool) (prompt : String) : ℚ :=
  passACatValue (lowerStr tool.name) (lowerStr prompt) actionPatterns

/-- The second pass of `calculateActionMatch`, following the spec wording:
0.8 if some expected verb of the intent's type occurs in the tool name,
else 0. -/
def actionSecondPass (tool : IMCPTool) (intentType : IntentType) : ℚ :=
  if (intentTypeToActions intentType).any
      (fun a => containsSubstr (lowerStr tool.name) a) then 0.8 else 0

/-- The pass-(a) value is nonnegative. -/
theorem passAValue_nonneg (tn pl : String) (l : List String) :
    0 ≤ passAValue tn pl l := by
  rw [passAValue]; split_ifs <;> norm_num

/-- The pass-(a) value is at most 1. -/
theorem passAValue_le_one (tn pl : String) (l : List String) :
    passAValue tn pl l ≤ 1.0 := by
  rw [passAValue]; split_ifs <;> norm_num

/-- The categorywise pass-(a) value is nonnegative. -/
theorem passACatValue_nonneg (tn pl : String)
    (ps : List (String × List String)) : 0 ≤ passACatValue tn pl ps := by
  rw [passACatValue]; split_ifs <;> norm_num

/-- The categorywise pass-(a) value is at most 1. -/
theorem passACatValue_le_one (tn pl : String)
    (ps : List (String × List String)) : passACatValue tn pl ps ≤ 1.0 := by
  rw [passACatValue]; split_ifs <;> norm_num

/-- Expansion of the pass-(a) value when the head verb hits name and prompt. -/
theorem passAValue_cons_both {tn pl a : String} (t : List String)
    (h1 : containsSubstr tn a = true) (h2 : containsSubstr pl a = true) :
    passAValue tn pl (a :: t) = 1.0 := by
  simp [passAValue, List.any_cons, h1, h2]

/-- Expansion of the pass-(a) value when the head verb hits only the name. -/
theorem passAValue_cons_name {tn pl a : String} (t : List String)
    (h1 : containsSubstr tn a = true) (h2 : containsSubstr pl a = false) :
    passAValue tn pl (a :: t) =
      if t.any (fun a => containsSubstr tn a && containsSubstr pl a) then 1.0
      else 0.6 := by
  simp [passAValue, List.any_cons, h1, h2]

/-- Expansion of the pass-(a) value when the head verb misses the name. -/
theorem passAValue_cons_none {tn pl a : String} (t : List String)
    (h1 : containsSubstr tn a = false) :
    passAValue tn pl (a :: t) = passAValue tn pl t := by
  simp [passAValue, List.any_cons, h1]

/-- The inner fold of the first pass computes the running maximum of its
start value and the pass-(a) value of the verb list. -/
theorem foldl_actionStep_eq (tn pl : String) :
    ∀ (l : List String) (m : ℚ), 0 ≤ m →
      l.foldl (actionStep tn pl) m = max m (passAValue tn pl l)
  | [], m, hm => by
    rw [List.foldl_nil, passAValue]
    simp only [List.any_nil, if_false]
    exact (max_eq_left hm).symm
  | a :: t, m, hm => by
    rw [List.foldl_cons]
    by_cases h1 : containsSubstr tn a
    · by_cases h2 : containsSubstr pl a
      · have hstep : actionStep tn pl m a = max m 1.0 := by
          rw [actionStep, if_pos h1, if_pos h2]
        rw [hstep,
          foldl_actionStep_eq tn pl t (max m 1.0)
            (le_max_of_le_right (by norm_num)),
          max_assoc, passAValue_cons_both t h1 h2]
        congr 1
        exact max_eq_left (passAValue_le_one tn pl t)
      · have hstep : actionStep tn pl m a = max m 0.6 := by
          rw [actionStep, if_pos h1, if_neg (by simpa using h2)]
        rw [hstep,
          foldl_actionStep_eq tn pl t (max m 0.6)
            (le_max_of_le_right (by norm_num)),
          max_assoc, passAValue_cons_name t h1 (by simpa using h2)]
        congr 1
        rw [passAValue]
        by_cases hb : t.any (fun a => containsSubstr tn a && containsSubstr pl a)
        · rw [if_pos hb, if_pos hb]
          exact max_eq_right (by norm_num)
        · rw [if_neg hb, if_neg hb]
          split_ifs
          · exact max_self (0.6 : ℚ)
          · exact max_eq_left (by norm_num)
    · have hstep : actionStep tn pl m a = m := by
        rw [actionStep, if_neg (by simpa using h1)]
      rw [hstep, foldl_actionStep_eq tn pl t m hm,
        passAValue_cons_none t (by simpa using h1)]

/-- Cons expansion of the categorywise pass-(a) value: the head category
contributes through a maximum. -/
theorem passACatValue_cons (tn pl : String) (p : String × List String)
    (ts : List (String × List String)) :
    passACatValue tn pl (p :: ts) =
      max (passAValue tn pl p.2) (passACatValue tn pl ts) := by
  rw [passACatValue, passAValue, passACatValue]
  simp only [List.any_cons]
  rcases Bool.eq_false_or_eq_true
      (p.2.any (fun a => containsSubstr tn a && containsSubstr pl a)) with
    hb1 | hb1 <;>
  rcases Bool.eq_false_or_eq_true (ts.any
      (fun p => p.2.any (fun a => containsSubstr tn a && containsSubstr pl a))) with
    hb2 | hb2 <;>
  rcases Bool.eq_false_or_eq_true
      (p.2.any (fun a => containsSubstr tn a)) with hn1 | hn1 <;>
  rcases Bool.eq_false_or_eq_true
      (ts.any (fun p => p.2.any (fun a => containsSubstr tn a))) with hn2 | hn2 <;>
  simp only [hb1, hb2, hn1, hn2, Bool.true_or, Bool.false_or, Bool.or_true,
    Bool.or_false] <;>
  norm_num [max_def]

/-- The outer fold of the first pass computes the running maximum of its
start value and the categorywise pass-(a) value. -/
theorem foldl_actionPatterns_eq (tn pl : String) :
    ∀ (ps : List (String × List String)) (m : ℚ), 0 ≤ m →
      ps.foldl (fun m p => p.2.foldl (actionStep tn pl) m) m =
        max m (passACatValue tn pl ps)
  | [], m, hm => by
    rw [List.foldl_nil, passACatValue]
    simp only [List.any_nil, if_false]
    exact (max_eq_left hm).symm
  | p :: ts, m, hm => by
    rw [List.foldl_cons, foldl_actionStep_eq tn pl p.2 m hm,
      foldl_actionPatterns_eq tn pl ts (max m (passAValue tn pl p.2))
        (le_max_of_le_left hm),
      max_assoc, passACatValue_cons tn pl p ts]

/-- The second-pass fold computes the running maximum of its start value
and the pass-(b) value. -/
theorem foldl_intentActionStep_eq (tn : String) :
    ∀ (l : List String) (m : ℚ), 0 ≤ m →
      l.foldl (intentActionStep tn) m =
        max m (if l.any (fun a => containsSubstr tn a) then 0.8 else 0)
  | [], m, hm => by
    simp only [List.foldl_nil, List.any_nil, if_false]
    exact (max_eq_left hm).symm
  | a :: t, m, hm => by
    rw [List.foldl_cons]
    by_cases h1 : containsSubstr tn a
    · have hstep : intentActionStep tn m a = max m 0.8 := by
        rw [intentActionStep, if_pos h1]
      rw [hstep,
        foldl_intentActionStep_eq tn t (max m 0.8)
          (le_max_of_le_right (by norm_num)),
        max_assoc]
      simp only [List.any_cons, h1, Bool.true_or, if_true]
      congr 1
      split_ifs
      · exact max_self (0.8 : ℚ)
      · exact max_eq_left (by norm_num)
    · have hstep : intentActionStep tn m a = m := by
        rw [intentActionStep, if_neg (by simpa using h1)]
      rw [hstep, foldl_intentActionStep_eq tn t m hm]
      simp only [List.any_cons, (by simpa using h1 : containsSubstr tn a = false),
        Bool.false_or]

/-- C5: `calculateActionMatch` equals the maximum of its two passes — 1.0 /
0.6 / 0 from the action-table pass and 0.8 / 0 from the intent-verbs pass —
so a 1.0 from pass (a) survives a would-be 0.8 from pass (b). -/
theorem actionMatch_eq_max_of_passes (tool : IMCPTool)
    (intentType : IntentType) (prompt : String) :
    calculateActionMatch tool intentType prompt =
      max (actionFirstPass tool prompt) (actionSecondPass tool intentType) := by
  rw [calculateActionMatch_eq,
    foldl_actionPatterns_eq (lowerStr tool.name) (lowerStr prompt)
      actionPatterns 0 le_rfl,
    foldl_intentActionStep_eq (lowerStr tool.name)
      (intentTypeToActions intentType) _
      (le_max_of_le_right (passACatValue_nonneg _ _ _)),
    max_eq_right
      (passACatValue_nonneg (lowerStr tool.name) (lowerStr prompt)
        actionPatterns)]
  rfl

/-! ### C4 -/

/-- Number of already-selected items sharing a source identifier. -/
def serverCountIn (l : List IToolScore) (s : String) : ℕ :=
  l.countP (fun t => t.serverName == s)

/-- Number of already-selected items sharing an inferred category. -/
def categoryCountIn (l : List IToolScore) (c : String) : ℕ :=
  l.countP (fun t => inferToolCategory t.tool == c)

/-- The diversity penalty of a candidate relative to the already-accepted
items: `min(sourceCount·0.05, 0.2) + min(categoryCount·0.10, 0.3)`. -/
def diversityPenaltyFor (prev : List IToolScore) (t : IToolScore) : ℚ :=
  min ((serverCountIn prev t.serverName : ℚ) * 0.05) 0.2 +
    min ((categoryCountIn prev (inferToolCategory t.tool) : ℚ) * 0.1) 0.3

/-- The adjusted score of a candidate relative to the already-accepted
items: `aggregate · (1 − penalty)`. -/
def adjustedScoreFor (prev : List IToolScore) (t : IToolScore) : ℚ :=
  t.score * (1 - diversityPenaltyFor prev t)

/-- Every item of the second list, relative to the first list extended with
the items accepted before it, has adjusted score strictly above 0.15. -/
def hybridAcceptedFrom : List IToolScore → List IToolScore → Prop
  | _, [] => True
  | prev, t :: rest =>
    adjustedScoreFor prev t > 0.15 ∧ hybridAcceptedFrom (prev ++ [t]) rest

/-- Unfolding of the hybrid loop on a cons cell. -/
theorem selectByHybridAux_cons (maxTools : ℕ) (sc cc : String → ℕ)
    (sel : List IToolScore) (t : IToolScore) (rest : List IToolScore) :
    selectByHybridAux maxTools sc cc sel (t :: rest) =
      if maxTools ≤ sel.length then sel
      else if t.score * (1 - (min ((sc t.serverName : ℚ) * 0.05) 0.2 +
          min ((cc (inferToolCategory t.tool) : ℚ) * 0.1) 0.3)) > 0.15 then
        selectByHybridAux maxTools
          (setCount sc t.serverName (sc t.serverName + 1))
          (setCount cc (inferToolCategory t.tool)
            (cc (inferToolCategory t.tool) + 1))
          (sel ++ [t]) rest
      else selectByHybridAux maxTools sc cc sel rest := rfl

/-- Appending an accepted item bumps exactly its own source count. -/
theorem serverCountIn_append (sel : List IToolScore) (t : IToolScore)
    (sc : String → ℕ) (hsc : ∀ name, sc name = serverCountIn sel name)
    (name : String) :
    setCount sc t.serverName (sc t.serverName + 1) name =
      serverCountIn (sel ++ [t]) name := by
  rw [setCount, serverCountIn, List.countP_append]
  by_cases hname : name = t.serverName
  · subst hname
    rw [if_pos rfl, hsc _, serverCountIn]
    simp [List.countP_cons]
  · rw [if_neg hname, hsc name, serverCountIn]
    have : (t.serverName == name) = false := by
      simp [Ne.symm hname]
    simp [List.countP_cons, this]

/-- Appending an accepted item bumps exactly its own category count. -/
theorem categoryCountIn_append (sel : List IToolScore) (t : IToolScore)
    (cc : String → ℕ) (hcc : ∀ c, cc c = categoryCountIn sel c)
    (c : String) :
    setCount cc (inferToolCategory t.tool)
        (cc (inferToolCategory t.tool) + 1) c =
      categoryCountIn (sel ++ [t]) c := by
  rw [setCount, categoryCountIn, List.countP_append]
  by_cases hc : c = inferToolCategory t.tool
  · subst hc
    rw [if_pos rfl, hcc _, categoryCountIn]
    simp [List.countP_cons]
  · rw [if_neg hc, hcc c, categoryCountIn]
    have : (inferToolCategory t.tool == c) = false := by
      simp [Ne.symm hc]
    simp [List.countP_cons, this]

/-- Main invariant of the hybrid loop: starting from an accepted prefix with
matching counts, the loop appends a subsequence of the remaining input,
each appended item clears the adjusted-score bar relative to the items
accepted before it, and the total never exceeds `max sel.length maxTools`. -/
theorem selectByHybridAux_spec (maxTools : ℕ) :
    ∀ (ts : List IToolScore) (sc cc : String → ℕ) (sel : List IToolScore),
      (∀ name, sc name = serverCountIn sel name) →
      (∀ c, cc c = categoryCountIn sel c) →
      ∃ s, selectByHybridAux maxTools sc cc sel ts = sel ++ s ∧
        s.Sublist ts ∧ hybridAcceptedFrom sel s ∧
        (sel ++ s).length ≤ max sel.length maxTools
  | [], sc, cc, sel, hsc, hcc =>
    ⟨[], by rw [List.append_nil]; rfl, List.nil_sublist _, trivial,
      by rw [List.append_nil]; exact le_max_left _ _⟩
  | t :: rest, sc, cc, sel, hsc, hcc => by
    rw [selectByHybridAux_cons]
    by_cases hlen : maxTools ≤ sel.length
    · rw [if_pos hlen]
      exact ⟨[], by rw [List.append_nil], List.nil_sublist _, trivial,
        by rw [List.append_nil]; exact le_max_left _ _⟩
    · rw [if_neg hlen]
      have hadj : t.score * (1 - (min ((sc t.serverName : ℚ) * 0.05) 0.2 +
          min ((cc (inferToolCategory t.tool) : ℚ) * 0.1) 0.3)) =
          adjustedScoreFor sel t := by
        rw [adjustedScoreFor, diversityPenaltyFor, hsc, hcc]
      by_cases hacc : t.score * (1 - (min ((sc t.serverName : ℚ) * 0.05) 0.2 +
          min ((cc (inferToolCategory t.tool) : ℚ) * 0.1) 0.3)) > 0.15
      · rw [if_pos hacc]
        obtain ⟨s, heq, hsub, haccd, hlens⟩ :=
          selectByHybridAux_spec maxTools rest
            (setCount sc t.serverName (sc t.serverName + 1))
            (setCount cc (inferToolCategory t.tool)
              (cc (inferToolCategory t.tool) + 1))
            (sel ++ [t])
            (serverCountIn_append sel t sc hsc)
            (categoryCountIn_append sel t cc hcc)
        refine ⟨t :: s, ?_, hsub.cons₂ t, ⟨hadj ▸ hacc, haccd⟩, ?_⟩
        · rw [heq, List.append_assoc, List.singleton_append]
        · have h1 : (sel ++ t :: s).length = ((sel ++ [t]) ++ s).length := by
            rw [List.append_assoc, List.singleton_append]
          rw [h1]
          refine le_trans hlens (max_le ?_ (le_max_right _ _))
          rw [List.length_append, List.length_singleton]
          have : sel.length + 1 ≤ maxTools := by omega
          exact le_trans this (le_max_right _ _)
      · rw [if_neg hacc]
        obtain ⟨s, heq, hsub, haccd, hlens⟩ :=
          selectByHybridAux_spec maxTools rest sc cc sel hsc hcc
        exact ⟨s, heq, hsub.cons t, haccd, hlens⟩

/-- C4: hybrid selection returns at most `maxTools` items, keeps them in
input order (its output is a subsequence of its input), and accepts an item
only when its adjusted score — aggregate times one minus the diversity
penalty computed from the previously accepted items sharing its source or
inferred category — strictly exceeds 0.15. -/
theorem selectByHybrid_spec (tools : List IToolScore) (maxTools : ℕ) :
    (selectByHybrid tools maxTools).length ≤ maxTools ∧
    (selectByHybrid tools maxTools).Sublist tools ∧
    hybridAcceptedFrom [] (selectByHybrid tools maxTools) := by
  obtain ⟨s, heq, hsub, hacc, hlen⟩ :=
    selectByHybridAux_spec maxTools tools (fun _ => 0) (fun _ => 0) []
      (fun name => rfl) (fun c => rfl)
  rw [selectByHybrid, heq, List.nil_append]
  rw [List.nil_append] at hlen
  refine ⟨?_, hsub, hacc⟩
  simpa using hlen

/-! ### Concrete scenario: the compile_contract tool (C7 and witnesses) -/

/-- The scenario tool of the spec: name `compile_contract`, description
`Compiles solidity contracts`, no input schema text. -/
def compileTool : IMCPTool :=
  ⟨"compile_contract", some "Compiles solidity contracts", ""⟩

/-- The scenario intent: coding, keyword `compile`, domain `solidity`. -/
def codingIntent : IUserIntent := ⟨.coding, ["compile"], ["solidity"]⟩

/-- The scenario prompt. -/
def compilePrompt : String := "please compile my contract"

/-- Keyword component of the scenario: the direct match of `compile` gives
award 1.0 and the clamp leaves 1. -/
theorem compile_keywordMatch :
    calculateKeywordMatch compileTool ["compile"] compilePrompt = 1 := by
  rw [show calculateKeywordMatch compileTool ["compile"] compilePrompt =
    min (((0:ℚ) + 1.0) / ((1:ℕ):ℚ)) 1.0 from rfl]
  norm_num

/-- Domain component of the scenario: `solidity` has default weight 1.0 and
occurs in the tool text. -/
theorem compile_domainRelevance :
    calculateDomainRelevance compileTool ["solidity"]
      (mergedDomainWeights emptyParams) = 1 := by
  have hlw : lookupWeight (mergedDomainWeights emptyParams) "solidity" = 1.0 := by
    rw [lookupWeight,
      show (mergedDomainWeights emptyParams).lookup "solidity" = some 1.0 from rfl]
    show (if (1.0:ℚ) = 0 then 0.5 else 1.0) = 1.0
    rw [if_neg (by norm_num : ¬((1.0:ℚ) = 0))]
  rw [show calculateDomainRelevance compileTool ["solidity"]
      (mergedDomainWeights emptyParams) =
    ((0:ℚ) + lookupWeight (mergedDomainWeights emptyParams) "solidity")
      / ((1:ℕ):ℚ) from rfl, hlw]
  norm_num

/-- Type component of the scenario: `compile` is a coding verb occurring in
the tool name. -/
theorem compile_typeRelevance :
    calculateTypeRelevance compileTool .coding = 1 := by
  rw [show calculateTypeRelevance compileTool .coding =
    (if max (0:ℚ) 1.0 = 0 then 0.3 else max (0:ℚ) 1.0) from rfl]
  rw [max_eq_right (by norm_num : (0:ℚ) ≤ 1.0)]
  rw [if_neg (by norm_num : ¬((1.0:ℚ) = 0))]
  norm_num

/-- Action component of the scenario: `compile` occurs in the tool name and
in the prompt. -/
theorem compile_actionMatch :
    calculateActionMatch compileTool .coding compilePrompt = 1 := by
  rw [show calculateActionMatch compileTool .coding compilePrompt =
    max (max (0:ℚ) 1.0) 0.8 from rfl]
  rw [max_eq_right (by norm_num : (0:ℚ) ≤ 1.0)]
  rw [max_eq_left (by norm_num : (0.8:ℚ) ≤ 1.0)]
  norm_num

/-- Aggregate of the scenario: the weighted sum of four ones is one. -/
theorem compile_aggregate :
    (calculateToolScore compileTool codingIntent compilePrompt
      (mergedDomainWeights emptyParams)).1 = 1 := by
  rw [calculateToolScore_fst]
  show 0.35 * calculateKeywordMatch compileTool ["compile"] compilePrompt
    + 0.25 * calculateDomainRelevance compileTool ["solidity"]
        (mergedDomainWeights emptyParams)
    + 0.20 * calculateTypeRelevance compileTool .coding
    + 0.20 * calculateActionMatch compileTool .coding compilePrompt = 1
  rw [compile_keywordMatch, compile_domainRelevance, compile_typeRelevance,
    compile_actionMatch]
  norm_num

/-- C7: on the spec's concrete scenario — tool `compile_contract`, coding
intent with keyword `compile` and domain `solidity`, prompt `please compile
my contract`, default configuration — all four components and the aggregate
equal 1. -/
theorem scenario_compile_contract :
    (calculateToolScore compileTool codingIntent compilePrompt
      (mergedDomainWeights emptyParams)).2.keywordMatch = 1 ∧
    (calculateToolScore compileTool codingIntent compilePrompt
      (mergedDomainWeights emptyParams)).2.domainRelevance = 1 ∧
    (calculateToolScore compileTool codingIntent compilePrompt
      (mergedDomainWeights emptyParams)).2.typeRelevance = 1 ∧
    (calculateToolScore compileTool codingIntent compilePrompt
      (mergedDomainWeights emptyParams)).2.actionMatch = 1 ∧
    (calculateToolScore compileTool codingIntent compilePrompt
      (mergedDomainWeights emptyParams)).1 = 1 :=
  ⟨compile_keywordMatch, compile_domainRelevance, compile_typeRelevance,
   compile_actionMatch, compile_aggregate⟩

/-- Input entry pairing the scenario tool with a server name. -/
def compileEntry : ToolEntry := ⟨compileTool, "remix-mcp"⟩

/-- The scored record that `scoreTools` produces for the scenario entry. -/
def compileScored : IToolScore :=
  ⟨compileTool, "remix-mcp",
   (calculateToolScore compileTool codingIntent compilePrompt
     (mergedDomainWeights emptyParams)).1,
   (calculateToolScore compileTool codingIntent compilePrompt
     (mergedDomainWeights emptyParams)).2⟩

/-- The scenario record is a member of the `scoreTools` output. -/
theorem compileScored_mem :
    compileScored ∈
      scoreTools [compileEntry] codingIntent compilePrompt emptyParams := by
  have hcond : effectiveThreshold emptyParams ≤
      (calculateToolScore compileEntry.tool codingIntent compilePrompt
        (mergedDomainWeights emptyParams)).1 := by
    rw [show effectiveThreshold emptyParams = (0.3:ℚ) from rfl,
      show (calculateToolScore compileEntry.tool codingIntent compilePrompt
        (mergedDomainWeights emptyParams)).1 =
        (calculateToolScore compileTool codingIntent compilePrompt
          (mergedDomainWeights emptyParams)).1 from rfl,
      compile_aggregate]
    norm_num
  have hsome : scoreEntry codingIntent compilePrompt
      (mergedDomainWeights emptyParams) (effectiveThreshold emptyParams)
      compileEntry = some compileScored := by
    rw [scoreEntry, if_pos hcond]
    rfl
  rw [show scoreTools [compileEntry] codingIntent compilePrompt emptyParams =
    (List.filterMap (scoreEntry codingIntent compilePrompt
      (mergedDomainWeights emptyParams) (effectiveThreshold emptyParams))
      [compileEntry]).mergeSort scoreDescLe from rfl]
  rw [List.filterMap_cons_some hsome, List.filterMap_nil,
    List.mergeSort_singleton]
  exact List.mem_singleton.mpr rfl

/-- Witness for C1 at the scenario input. -/
theorem scoreTools_aggregate_witness :
    compileScored.score = 0.35 * compileScored.components.keywordMatch
      + 0.25 * compileScored.components.domainRelevance
      + 0.20 * compileScored.components.typeRelevance
      + 0.20 * compileScored.components.actionMatch :=
  scoreTools_aggregate_eq_weighted_sum [compileEntry] codingIntent
    compilePrompt emptyParams compileScored compileScored_mem

/-- Witness for C2 at the scenario input. -/
theorem scoreTools_threshold_witness :
    effectiveThreshold emptyParams ≤ compileScored.score :=
  (scoreTools_threshold_and_sorted [compileEntry] codingIntent
    compilePrompt emptyParams).1 compileScored compileScored_mem

/-- Witness for C3 at the scenario input and the default weight table. -/
theorem components_within_unit_interval_witness :
    (0 ≤ (calculateToolScore compileTool codingIntent compilePrompt
        defaultDomainWeights).2.keywordMatch ∧
      (calculateToolScore compileTool codingIntent compilePrompt
        defaultDomainWeights).2.keywordMatch ≤ 1) ∧
    (0 ≤ (calculateToolScore compileTool codingIntent compilePrompt
        defaultDomainWeights).2.domainRelevance ∧
      (calculateToolScore compileTool codingIntent compilePrompt
        defaultDomainWeights).2.domainRelevance ≤ 1) ∧
    (0 ≤ (calculateToolScore compileTool codingIntent compilePrompt
        defaultDomainWeights).2.typeRelevance ∧
      (calculateToolScore compileTool codingIntent compilePrompt
        defaultDomainWeights).2.typeRelevance ≤ 1) ∧
    (0 ≤ (calculateToolScore compileTool codingIntent compilePrompt
        defaultDomainWeights).2.actionMatch ∧
      (calculateToolScore compileTool codingIntent compilePrompt
        defaultDomainWeights).2.actionMatch ≤ 1) :=
  components_within_unit_interval compileTool codingIntent compilePrompt
    defaultDomainWeights (by intro p hp; fin_cases hp <;> norm_num)

/-- Witness for C6 at the scenario tool, with a domain missing from its
text. -/
theorem domainRelevance_neutral_and_zero_witness :
    calculateDomainRelevance compileTool [] defaultDomainWeights = 0.5 ∧
    calculateDomainRelevance compileTool ["quantum"] defaultDomainWeights = 0 :=
  domainRelevance_neutral_and_zero compileTool defaultDomainWeights
    ["quantum"] (by simp)
    (fun d hd => by rw [List.mem_singleton] at hd; subst hd; rfl)

/-- Witness for C8 at a concrete unknown strategy tag. -/
theorem selectTools_unknown_strategy_witness :
    selectTools [compileScored] 2 "weighted" = [compileScored].take 2 :=
  selectTools_unknown_strategy [compileScored] 2 "weighted"
    (by decide) (by decide) (by decide)

/-! ### C9 -/

/-- The spec's low-scoring scenario tool. -/
def unrelatedTool : IMCPTool := ⟨"unrelated_tool", some "", ""⟩

/-- Intent whose keyword misses the tool entirely and carries no domains. -/
def foobarIntent : IUserIntent := ⟨.coding, ["foobar"], []⟩

/-- Configuration that explicitly sets the relevance threshold to 0. -/
def zeroThresholdParams : IEnhancedMCPProviderParams := ⟨[], some 0⟩

/-- Keyword component of the low-scoring scenario: nothing matches. -/
theorem unrelated_keywordMatch :
    calculateKeywordMatch unrelatedTool ["foobar"] "x" = 0 := by
  rw [show calculateKeywordMatch unrelatedTool ["foobar"] "x" =
    min ((0:ℚ) / ((1:ℕ):ℚ)) 1.0 from rfl]
  rw [show ((0:ℚ) / ((1:ℕ):ℚ)) = 0 by norm_num,
    min_eq_left (by norm_num : (0:ℚ) ≤ 1.0)]

/-- Domain component of the low-scoring scenario: no domains, neutral 0.5. -/
theorem unrelated_domainRelevance :
    calculateDomainRelevance unrelatedTool []
      (mergedDomainWeights zeroThresholdParams) = 0.5 := rfl

/-- Type component of the low-scoring scenario: no coding verb occurs, so
the falsy default 0.3 applies. -/
theorem unrelated_typeRelevance :
    calculateTypeRelevance unrelatedTool .coding = 0.3 := by
  rw [show calculateTypeRelevance unrelatedTool .coding =
    (if (0:ℚ) = 0 then 0.3 else (0:ℚ)) from rfl, if_pos rfl]

/-- Action component of the low-scoring scenario: no action verb occurs. -/
theorem unrelated_actionMatch :
    calculateActionMatch unrelatedTool .coding "x" = 0 := rfl

/-- Aggregate of the low-scoring scenario: 0.25·0.5 + 0.20·0.3 = 0.185,
inside the open interval (0, 0.3). -/
theorem unrelated_aggregate :
    (calculateToolScore unrelatedTool foobarIntent "x"
      (mergedDomainWeights zeroThresholdParams)).1 = 0.185 := by
  rw [calculateToolScore_fst]
  show 0.35 * calculateKeywordMatch unrelatedTool ["foobar"] "x"
    + 0.25 * calculateDomainRelevance unrelatedTool []
        (mergedDomainWeights zeroThresholdParams)
    + 0.20 * calculateTypeRelevance unrelatedTool .coding
    + 0.20 * calculateActionMatch unrelatedTool .coding "x" = 0.185
  rw [unrelated_keywordMatch, unrelated_domainRelevance,
    unrelated_typeRelevance, unrelated_actionMatch]
  norm_num

/-- C9: an explicit `toolRelevanceThreshold` of 0 is falsy, so `scoreTools`
still filters at the default 0.3; a tool whose aggregate (0.185) lies in
(0, 0.3) is excluded even though it clears the configured threshold 0. -/
theorem zero_threshold_treated_as_default :
    (∀ dw : List (String × ℚ), effectiveThreshold ⟨dw, some 0⟩ = 0.3) ∧
    0 < (calculateToolScore unrelatedTool foobarIntent "x"
      (mergedDomainWeights zeroThresholdParams)).1 ∧
    (calculateToolScore unrelatedTool foobarIntent "x"
      (mergedDomainWeights zeroThresholdParams)).1 < 0.3 ∧
    scoreTools [⟨unrelatedTool, "srv"⟩] foobarIntent "x"
      zeroThresholdParams = [] := by
  have hth : effectiveThreshold zeroThresholdParams = (0.3:ℚ) := by
    show (if (0:ℚ) = 0 then (0.3:ℚ) else 0) = 0.3
    rw [if_pos rfl]
  refine ⟨fun dw => ?_, ?_, ?_, ?_⟩
  · show (if (0:ℚ) = 0 then (0.3:ℚ) else 0) = 0.3
    rw [if_pos rfl]
  · rw [unrelated_aggregate]; norm_num
  · rw [unrelated_aggregate]; norm_num
  · have hlt : ¬ (effectiveThreshold zeroThresholdParams ≤
        (calculateToolScore (⟨unrelatedTool, "srv"⟩ : ToolEntry).tool
          foobarIntent "x" (mergedDomainWeights zeroThresholdParams)).1) := by
      rw [hth,
        show (calculateToolScore (⟨unrelatedTool, "srv"⟩ : ToolEntry).tool
          foobarIntent "x" (mergedDomainWeights zeroThresholdParams)).1 =
          (calculateToolScore unrelatedTool foobarIntent "x"
            (mergedDomainWeights zeroThresholdParams)).1 from rfl,
        unrelated_aggregate]
      norm_num
    have hnone : scoreEntry foobarIntent "x"
        (mergedDomainWeights zeroThresholdParams)
        (effectiveThreshold zeroThresholdParams)
        (⟨unrelatedTool, "srv"⟩ : ToolEntry) = none := by
      rw [scoreEntry, if_neg hlt]
    rw [show scoreTools [⟨unrelatedTool, "srv"⟩] foobarIntent "x"
        zeroThresholdParams =
      (List.filterMap (scoreEntry foobarIntent "x"
        (mergedDomainWeights zeroThresholdParams)
        (effectiveThreshold zeroThresholdParams))
        [⟨unrelatedTool, "srv"⟩]).mergeSort scoreDescLe from rfl,
      List.filterMap_cons_none hnone, List.filterMap_nil,
      List.mergeSort_nil]

/-! ### C10 -/

/-- Configuration that explicitly overrides the solidity weight to 0. -/
def zeroWeightParams : IEnhancedMCPProviderParams := ⟨[("solidity", 0)], none⟩

/-- C10: a domain explicitly mapped to weight 0 is falsy in the per-domain
lookup, so `lookupWeight` substitutes the neutral 0.5; for a tool whose
text contains the domain, domainRelevance accumulates 0.5 instead of 0 —
the explicit zero override never takes effect. -/
theorem explicit_zero_weight_ignored :
    (∀ (params : IEnhancedMCPProviderParams) (d : String),
      params.domainWeights.lookup d = some 0 →
      lookupWeight (mergedDomainWeights params) d = 0.5) ∧
    lookupWeight (mergedDomainWeights zeroWeightParams) "solidity" = 0.5 ∧
    calculateDomainRelevance compileTool ["solidity"]
      (mergedDomainWeights zeroWeightParams) = 0.5 := by
  have hgen : ∀ (params : IEnhancedMCPProviderParams) (d : String),
      params.domainWeights.lookup d = some 0 →
      lookupWeight (mergedDomainWeights params) d = 0.5 := by
    intro params d h
    rw [lookupWeight, mergedDomainWeights, List.lookup_append, h]
    show (if (0:ℚ) = 0 then (0.5:ℚ) else 0) = 0.5
    rw [if_pos rfl]
  refine ⟨hgen, hgen zeroWeightParams "solidity" rfl, ?_⟩
  rw [show calculateDomainRelevance compileTool ["solidity"]
      (mergedDomainWeights zeroWeightParams) =
    ((0:ℚ) + lookupWeight (mergedDomainWeights zeroWeightParams) "solidity")
      / ((1:ℕ):ℚ) from rfl,
    hgen zeroWeightParams "solidity" rfl]
  norm_num

/-- Witness for C10: the general zero-weight fallback applied at the
concrete configuration. -/
theorem explicit_zero_weight_ignored_witness :
    lookupWeight (mergedDomainWeights zeroWeightParams) "solidity" = 0.5 :=
  explicit_zero_weight_ignored.1 zeroWeightParams "solidity" rfl

end ToolScoring
